import Mathlib

/-!
# LED service and client (`led-service/led_service.c`, `led-service/led_client.c`)

A shallow embedding of the LED control functions (`writeValue`, `readFile`,
`enableLed`, `disableLed`, `isLedOn`, `isBlinking`, `blinkFrequency`), of the
four bus method handlers (`flash_method`, `on_method`, `off_method`,
`status_method`), of the start-up sequence of the service `main`, and of the
client (`found_advertised_name`, argument checking, wait and invocation in
`main`).

* File contents and C strings are lists of characters (`Bytes`).  A buffer
  returned by `readFile` is the list of bytes `fread` delivered; the rest of
  the `calloc`ed buffer is zero, so running off the end of the list means
  reading a NUL.
* The file system is a parameter (`Sysfs`): what `fopen`/`fread` give for each
  of the four files and what a `fopen`/`fwrite`/`fclose` sequence does.
* Every `writeValue` call is recorded in a log, in order.
* A function whose C code has undefined behaviour on some input (arithmetic on
  or a store through a NULL pointer, `atoi` of an unrepresentable value)
  returns `none` there.
* `int` and `uint32_t` are integers with explicit wrap-around modulo `2^32`.
* A `double` is its IEEE-754 binary64 bit pattern.
* The bus library is outside the repository: the status each of its calls
  returns, the callbacks it delivers and the C library function `atof` are
  inputs of the two `main` functions.
-/

namespace LedService

/-! ## Basic types -/

/-- Bytes of a file or of a C string. -/
abbrev Bytes := List Char

/-- The NUL byte that terminates a C string. -/
def NUL : Char := Char.ofNat 0

/-- `#define BUFFER_SIZE 1024`. -/
def BUFFER_SIZE : Nat := 1024

/-- The four sysfs files of the LED (`LED_TRIGGER_FILE`, `LED_BRIGHTNESS_FILE`,
`LED_DELAY_ON_FILE`, `LED_DELAY_OFF_FILE`). -/
inductive LedFile where
  | trigger
  | brightness
  | delay_on
  | delay_off
  deriving DecidableEq, Repr

/-- A C `double`, given by its IEEE-754 binary64 bit pattern. -/
structure Double where
  bits : Nat
  deriving DecidableEq, Repr

namespace Double

/-- The constant `0.0` (also the value of the `int` constant `0` converted to `double`). -/
def zero : Double := ⟨0⟩

/-- The constant `1.0`: sign 0, biased exponent 1023, mantissa 0. -/
def one : Double := ⟨0x3FF0000000000000⟩

/-- Bit pattern of `+infinity`. -/
def infBits : Nat := 0x7FF0000000000000

/-- `b == 0.0` in C: true of `+0.0` and of `-0.0`. -/
def isZero (b : Double) : Bool := decide (b.bits % 2 ^ 63 = 0)

/-- `b > 0.0` in C: sign bit clear, not zero, not a NaN. -/
def isPositive (b : Double) : Bool :=
  decide (0 < b.bits) && decide (b.bits ≤ infBits)

/-- `0.0 <= b && b <= 1.0` in C: a zero, or a positive value whose bit pattern
does not exceed that of `1.0` (non-negative doubles are ordered like their bits). -/
def inUnitInterval (b : Double) : Bool :=
  b.isZero || (b.isPositive && decide (b.bits ≤ one.bits))

end Double

/-- `INT_MIN` of a 32-bit `int`. -/
def INT_MIN : Int := -2147483648

/-- `INT_MAX` of a 32-bit `int`. -/
def INT_MAX : Int := 2147483647

/-- Conversion of a `uint32_t` to `int` (two-s complement wrap-around), as at the
call `enableLed(brightness, frequency)` in `flash_method`. -/
def toInt32 (u : Nat) : Int :=
  if u % 2 ^ 32 < 2 ^ 31 then ((u % 2 ^ 32 : Nat) : Int)
  else ((u % 2 ^ 32 : Nat) : Int) - 2 ^ 32

/-- Conversion of an `int` to `uint32_t` (reduction modulo `2^32`), as at
`frequency = blinkFrequency()` in `status_method`. -/
def toUInt32 (i : Int) : Nat := (i % 2 ^ 32).toNat

/-! ## C library functions -/

/-- `strchr(s, c)` for `c` other than NUL: the index of the first `c` in the C
string held in buffer `s`, or `none` (NULL) when the string ends first. -/
def strchr : Bytes → Char → Option Nat
  | [], _ => none
  | x :: xs, c =>
    if x = c then some 0
    else if x = NUL then none
    else (strchr xs c).map (· + 1)

/-- `strcmp(a, b)`: difference of the first differing bytes, `0` when both C
strings are equal.  The end of a list reads as NUL. -/
def strcmp : Bytes → Bytes → Int
  | [], [] => 0
  | [], y :: _ => -(y.toNat : Int)
  | x :: _, [] => (x.toNat : Int)
  | x :: xs, y :: ys =>
    if x ≠ y then (x.toNat : Int) - (y.toNat : Int)
    else if x = NUL then 0
    else strcmp xs ys

/-- `isspace` in the C locale. -/
def isspace (c : Char) : Bool :=
  c = ' ' || (decide (9 ≤ c.toNat) && decide (c.toNat ≤ 13))

/-- `isdigit`. -/
def isdigit (c : Char) : Bool :=
  decide (48 ≤ c.toNat) && decide (c.toNat ≤ 57)

/-- The digit loop of `atoi`: accumulate decimal digits, stop at the first byte
that is not a digit (the end of the list reads as NUL). -/
def atoiDigits : Nat → Bytes → Nat
  | acc, [] => acc
  | acc, c :: cs =>
    if isdigit c then atoiDigits (acc * 10 + (c.toNat - 48)) cs else acc

/-- The sign and digits of `atoi`, after leading white space. -/
def atoiSigned : Bytes → Int
  | [] => 0
  | c :: cs =>
    if c = '-' then -((atoiDigits 0 cs : Nat) : Int)
    else if c = '+' then ((atoiDigits 0 cs : Nat) : Int)
    else ((atoiDigits 0 (c :: cs) : Nat) : Int)

/-- `atoi(s)`: skip white space, optional sign, decimal digits.  The behaviour
is undefined (`none`) when the value is not representable in `int`. -/
def atoi (s : Bytes) : Option Int :=
  let v := atoiSigned (s.dropWhile isspace)
  if INT_MIN ≤ v ∧ v ≤ INT_MAX then some v else none

/-- The decimal digit character of `d < 10`. -/
def digitChar (d : Nat) : Char := Char.ofNat (48 + d)

/-- Decimal digits of `n`, most significant first, pushed in front of `acc`. -/
def decimalAux : Nat → Nat → Bytes → Bytes
  | 0, _, acc => acc
  | fuel + 1, n, acc =>
    if n < 10 then digitChar n :: acc
    else decimalAux fuel (n / 10) (digitChar (n % 10) :: acc)

/-- Decimal ASCII of a natural number (`"%u"`). -/
def natToDecimal (n : Nat) : Bytes := decimalAux (n + 1) n []

/-- What `"%d"` prints for an `int`. -/
def intToDecimal (i : Int) : Bytes :=
  if i < 0 then '-' :: natToDecimal i.natAbs else natToDecimal i.natAbs

/-- `snprintf(buf, size, "%d", i)`: at most `size - 1` bytes are stored. -/
def snprintf_d (size : Nat) (i : Int) : Bytes := (intToDecimal i).take (size - 1)

/-! ## The file system seen by the service -/

/-- The sysfs files as the C library shows them.  `read s f` is `none` when
`fopen(f, "r")` fails and the content of `f` otherwise; `write s f v` is `none`
when `fopen(f, "w+")` fails and otherwise the state after `fwrite` of `v` and
`fclose`. -/
structure Sysfs (σ : Type) where
  read : σ → LedFile → Option Bytes
  write : σ → LedFile → Bytes → Option σ

/-- A run of the service: the file-system state and the `writeValue` calls
made so far, oldest first (a call whose `fopen` fails is recorded too). -/
structure Run (σ : Type) where
  fs : σ
  log : List (LedFile × Bytes)

/-- The reply tuple `(double brightness, uint32 frequency)`. -/
abbrev Reply := Double × Nat

/-- The string `"none"`. -/
def str_none : Bytes := ['n', 'o', 'n', 'e']

/-- The string `"timer"`. -/
def str_timer : Bytes := ['t', 'i', 'm', 'e', 'r']

/-! ## LED control -/

/-- `writeValue(file, value)`.  Every caller passes a NUL-free C string, so
`strlen(value)` bytes are all of `value`. -/
def writeValue {σ : Type} (K : Sysfs σ) (m : Run σ) (file : LedFile) (value : Bytes) : Run σ :=
  match K.write m.fs file value with
  | some fs => { fs := fs, log := m.log ++ [(file, value)] }
  | none => { fs := m.fs, log := m.log ++ [(file, value)] }

/-- `readFile(file)`: `none` is the NULL returned when the file cannot be
opened; otherwise the first `BUFFER_SIZE - 1` bytes of the file. -/
def readFile {σ : Type} (K : Sysfs σ) (s : σ) (file : LedFile) : Option Bytes :=
  (K.read s file).map (fun content => content.take (BUFFER_SIZE - 1))

/-- `enableLed(intensity, frequency)`; `frequency` is an `int`. -/
def enableLed {σ : Type} (K : Sysfs σ) (m : Run σ) (_intensity : Double) (frequency : Int) : Run σ :=
  if frequency = 0 then
    let m := writeValue K m .trigger str_none
    writeValue K m .brightness ['1']
  else
    let frequencyStr := snprintf_d 80 frequency
    let m := writeValue K m .trigger str_timer
    let m := writeValue K m .brightness ['1']
    let m := writeValue K m .delay_on frequencyStr
    writeValue K m .delay_off frequencyStr

/-- `disableLed()`. -/
def disableLed {σ : Type} (K : Sysfs σ) (m : Run σ) : Run σ :=
  let m := writeValue K m .trigger str_none
  writeValue K m .brightness ['0']

/-- `isLedOn()`. -/
def isLedOn {σ : Type} (K : Sysfs σ) (s : σ) : Bool :=
  match readFile K s .brightness with
  | some (c :: _) => decide (c = '1')
  | _ => false

/-- `isBlinking()`.  `none` when `start` or `end` is NULL: the subtraction
`end - start` and the store `*end = 0` are then undefined. -/
def isBlinking {σ : Type} (K : Sysfs σ) (s : σ) : Option Bool :=
  match readFile K s .trigger with
  | none => some false
  | some trigger =>
    match strchr trigger '[', strchr trigger ']' with
    | some start, some end_ =>
      let len : Int := (end_ : Int) - (start : Int) - 1
      let start := start + 1
      let trigger := trigger.set end_ NUL
      some (decide (len = 5) && decide (strcmp (trigger.drop start) str_timer = 0))
    | _, _ => none

/-- `blinkFrequency()`; `none` when `atoi` is undefined on the content. -/
def blinkFrequency {σ : Type} (K : Sysfs σ) (s : σ) : Option Int :=
  match readFile K s .delay_on with
  | none => some 0
  | some frequency => atoi frequency

/-! ## Method handlers -/

/-- `getReturnStatus(&outArg, brightness, frequency)`: the two-element reply
`(double, uint32)` placed in `outArg`. -/
def getReturnStatus (brightness : Double) (frequency : Nat) : Reply :=
  (brightness, frequency)

/-- `flash_method` on decoded arguments `brightness` and `frequency` (a `uint32_t`). -/
def flash_method {σ : Type} (K : Sysfs σ) (m : Run σ) (brightness : Double) (frequency : Nat) :
    Run σ × Reply :=
  let m := enableLed K m brightness (toInt32 frequency)
  (m, getReturnStatus brightness frequency)

/-- `on_method` on the decoded argument `brightness`. -/
def on_method {σ : Type} (K : Sysfs σ) (m : Run σ) (brightness : Double) : Run σ × Reply :=
  let m := enableLed K m brightness 0
  (m, getReturnStatus brightness 0)

/-- `off_method`.  The call is `getReturnStatus(&outArg, 0, 0.0)`: the `int` `0`
converts to the `double` `0.0` and the `double` `0.0` to the `uint32_t` `0`. -/
def off_method {σ : Type} (K : Sysfs σ) (m : Run σ) : Run σ × Reply :=
  let m := disableLed K m
  (m, getReturnStatus Double.zero 0)

/-- `status_method`: the reply built from what is read back; `none` when
`isBlinking` or `blinkFrequency` is undefined. -/
def status_method {σ : Type} (K : Sysfs σ) (m : Run σ) : Option (Run σ × Reply) :=
  match isBlinking K m.fs with
  | none => none
  | some true =>
    match blinkFrequency K m.fs with
    | none => none
    | some r => some (m, getReturnStatus Double.one (toUInt32 r))
  | some false =>
    if isLedOn K m.fs then some (m, getReturnStatus Double.one 0)
    else some (m, getReturnStatus Double.zero 0)

/-! ## Two file systems -/

/-- Plain files: each of the four files is absent (it cannot be opened) or holds
the given content. -/
structure Files where
  trigger : Option Bytes
  brightness : Option Bytes
  delay_on : Option Bytes
  delay_off : Option Bytes
  deriving DecidableEq, Repr

/-- The content of one of the plain files. -/
def Files.get (d : Files) : LedFile → Option Bytes
  | .trigger => d.trigger
  | .brightness => d.brightness
  | .delay_on => d.delay_on
  | .delay_off => d.delay_off

/-- Storing into one of the plain files; an absent file stays absent (sysfs
does not create attributes on `fopen`). -/
def Files.put (d : Files) (f : LedFile) (v : Bytes) : Files :=
  match d.get f with
  | none => d
  | some _ =>
    match f with
    | .trigger => { d with trigger := some v }
    | .brightness => { d with brightness := some v }
    | .delay_on => { d with delay_on := some v }
    | .delay_off => { d with delay_off := some v }

/-- Plain files as a `Sysfs`: a read returns the content as stored, an absent
file can be opened neither for reading nor for writing. -/
def plainSysfs : Sysfs Files where
  read := Files.get
  write := fun d f v =>
    match d.get f with
    | none => none
    | some _ => some (d.put f v)

/-- How the kernel lists the triggers it does not select: the text shown before
and after the bracketed entry when `name` is the active trigger. -/
structure Listing where
  before : Bytes → Bytes
  after : Bytes → Bytes

/-- State of a present LED class device: the active trigger name and the
last value stored into each of the other three attributes. -/
structure LedDevice where
  active : Bytes
  brightness : Bytes
  delay_on : Bytes
  delay_off : Bytes
  deriving DecidableEq, Repr

/-- What a read of the `trigger` attribute shows: the listing with the active
name in brackets. -/
def showTrigger (L : Listing) (active : Bytes) : Bytes :=
  L.before active ++ '[' :: (active ++ ']' :: L.after active)

/-- The LED class device as a `Sysfs`: a name written to `trigger` is
afterwards shown as the bracketed active entry, the other attributes read
back what was last written. -/
def kernelSysfs (L : Listing) : Sysfs LedDevice where
  read := fun d f =>
    match f with
    | .trigger => some (showTrigger L d.active)
    | .brightness => some d.brightness
    | .delay_on => some d.delay_on
    | .delay_off => some d.delay_off
  write := fun d f v =>
    match f with
    | .trigger => some { d with active := v }
    | .brightness => some { d with brightness := v }
    | .delay_on => some { d with delay_on := v }
    | .delay_off => some { d with delay_off := v }

/-- The listing is usable when `name` is active: the text before the bracket
holds no bracket and no NUL, and the closing bracket lies within the
`BUFFER_SIZE - 1` bytes that `readFile` reads. -/
def Listing.fits (L : Listing) (name : Bytes) : Prop :=
  (∀ c ∈ L.before name, c ≠ '[' ∧ c ≠ ']' ∧ c ≠ NUL) ∧
    (L.before name).length + name.length + 2 ≤ BUFFER_SIZE - 1

instance (L : Listing) (name : Bytes) : Decidable (L.fits name) := by
  unfold Listing.fits; infer_instance

/-- A listing in the kernel format, `none` first and `timer` among the others. -/
def sampleListing : Listing where
  before := fun name =>
    if name = str_none then []
    else if name = str_timer then "none mmc0 ".data
    else "none mmc0 timer ".data
  after := fun name =>
    if name = str_none then " mmc0 timer heartbeat\n".data
    else if name = str_timer then " heartbeat\n".data
    else " heartbeat\n".data

/-! ## The parse of the trigger file in the words of the specification -/

/-- The text strictly between the first `[` and the first `]` that follows it;
`none` when there is no `[` or no `]` after it. -/
def activeTrigger (content : Bytes) : Option Bytes :=
  match content.dropWhile (fun c => decide (c ≠ '[')) with
  | [] => none
  | _ :: rest =>
    if ']' ∈ rest then some (rest.takeWhile (fun c => decide (c ≠ ']'))) else none

/-! ## Observing a handler -/

/-- The `writeValue` calls made between two points of a run. -/
def writesSince {σ : Type} (before after : Run σ) : List (LedFile × Bytes) :=
  after.log.drop before.log.length

/-- The values handed to `writeValue` for the brightness file, in order. -/
def brightnessWritten (w : List (LedFile × Bytes)) : List Bytes :=
  (w.filter (fun e => decide (e.1 = LedFile.brightness))).map Prod.snd

/-- Plain files with the given trigger, brightness and delay contents, before any call. -/
def filesWith (trigger brightness delay : String) : Run Files :=
  { fs := { trigger := some trigger.data, brightness := some brightness.data,
            delay_on := some delay.data, delay_off := some delay.data },
    log := [] }

/-- A device left blinking by the `heartbeat` trigger with delays of 500 ms. -/
def blinkingDevice : Run LedDevice :=
  { fs := { active := "heartbeat".data, brightness := "1".data,
            delay_on := "500".data, delay_off := "500".data },
    log := [] }

/-! ## Sequences of commands -/

/-- The three methods that drive the LED, with their decoded arguments. -/
inductive Command where
  | on (brightness : Double)
  | off
  | flash (brightness : Double) (frequency : Nat)
  deriving DecidableEq, Repr

/-- One method call handled by the service. -/
def runCommand {σ : Type} (K : Sysfs σ) (m : Run σ) : Command → Run σ × Reply
  | .on b => on_method K m b
  | .off => off_method K m
  | .flash b f => flash_method K m b f

/-- A sequence of method calls handled one after the other. -/
def runCommands {σ : Type} (K : Sysfs σ) (m : Run σ) : List Command → Run σ
  | [] => m
  | c :: cs => runCommands K (runCommand K m c).1 cs

/-- A board without the LED device: none of the four files exists. -/
def missingDevice : Run Files :=
  { fs := { trigger := none, brightness := none, delay_on := none, delay_off := none },
    log := [] }

/-! ## Service start-up (`main` of `led_service.c`) -/

/-- `ER_OK` of the bus library (`alljoyn_c/Status.h`). -/
def ER_OK : Nat := 0

/-- The start-up calls of the service whose status `main` stores. -/
inductive StartupCall where
  | createinterface
  | addmethodhandlers
  | start
  | registerbusobject
  | connect
  | requestname
  | bindsessionport
  | advertisename
  deriving DecidableEq, Repr

/-- What the bus library returns to the service: the status of each start-up
call, and whether `getinterface` and the four `getmember` calls find what the
`assert`s require. -/
structure ServiceResults where
  createinterface : Nat
  addmethodhandlers : Nat
  start : Nat
  registerbusobject : Nat
  connect : Nat
  requestname : Nat
  bindsessionport : Nat
  advertisename : Nat
  getinterface : Bool
  getmember_flash : Bool
  getmember_on : Bool
  getmember_off : Bool
  getmember_status : Bool
  deriving DecidableEq, Repr

/-- A run of the service `main`: whether the interface was activated and the
bus listener registered, the start-up calls made, in order, whether the run
loop was entered, and the value returned (`none` when an `assert` aborts the
process).  The run loop is left on interrupt. -/
structure ServiceOutcome where
  listenerRegistered : Bool
  calls : List StartupCall
  runLoop : Bool
  exitCode : Option Nat
  deriving DecidableEq, Repr

/-- `main` of the service. -/
def led_service_main (r : ServiceResults) : ServiceOutcome :=
  let status := r.createinterface
  let calls := [StartupCall.createinterface]
  -- members added and interface activated, then bus listener registered, `if (status == ER_OK)`
  let listenerRegistered := decide (status = ER_OK)
  -- `assert(exampleIntf)` and the four `assert(foundMember == QCC_TRUE)`
  if !(r.getinterface && r.getmember_flash && r.getmember_on && r.getmember_off
      && r.getmember_status) then
    { listenerRegistered := listenerRegistered, calls := calls, runLoop := false,
      exitCode := none }
  else
    -- `status = alljoyn_busobject_addmethodhandlers(...)` is not guarded; its value is
    -- only tested for a message, then `status = alljoyn_busattachment_start(g_msgBus)`,
    -- not guarded either, overwrites it
    let calls := calls ++ [StartupCall.addmethodhandlers]
    let status := r.start
    let calls := calls ++ [StartupCall.start]
    let (status, calls) :=
      if status = ER_OK then
        let status := r.registerbusobject
        let calls := calls ++ [StartupCall.registerbusobject]
        if status = ER_OK then (r.connect, calls ++ [StartupCall.connect])
        else (status, calls)
      else (status, calls)
    -- `QStatus status = alljoyn_busattachment_requestname(...)` declares a new
    -- variable inside the block: the outer `status` keeps its value
    let calls := if status = ER_OK then calls ++ [StartupCall.requestname] else calls
    let (status, calls) :=
      if status = ER_OK then (r.bindsessionport, calls ++ [StartupCall.bindsessionport])
      else (status, calls)
    let (status, calls) :=
      if status = ER_OK then (r.advertisename, calls ++ [StartupCall.advertisename])
      else (status, calls)
    { listenerRegistered := listenerRegistered, calls := calls,
      runLoop := decide (status = ER_OK), exitCode := some status }

/-- Every start-up call returns `ER_OK` and every `assert` holds. -/
def allOk : ServiceResults :=
  { createinterface := 0, addmethodhandlers := 0, start := 0, registerbusobject := 0,
    connect := 0, requestname := 0, bindsessionport := 0, advertisename := 0,
    getinterface := true, getmember_flash := true, getmember_on := true,
    getmember_off := true, getmember_status := true }

/-! ## The client (`led_client.c`) -/

/-- `OBJECT_NAME`, the well-known name of the service. -/
def OBJECT_NAME : Bytes := "org.alljoyn.sample.ledcontroller.beagle".data

/-- The variables `cmd`, `brightness` and `frequency` of the client `main`. -/
structure ClientArgs where
  cmd : Int
  brightness : Double
  frequency : Nat
  deriving DecidableEq, Repr

/-- How argument checking ends: `usage` prints the usage text and calls
`exit(1)`, or `main` goes on with its three variables set. -/
inductive ArgOutcome where
  | usageExit
  | proceed (a : ClientArgs)
  deriving DecidableEq, Repr

/-- The `if`/`else` chain on `argc` and `argv[1]` at the head of the client
`main`; `argc` is the length of `argv`.  `atof` is the C library function;
`none` when `atoi` is undefined on `argv[3]`. -/
def checkArgs (atof : Bytes → Double) (argv : List Bytes) : Option ArgOutcome :=
  let argc := argv.length
  let arg := fun (i : Nat) => argv.getD i []
  if argc < 2 ∨ argc > 4 then some .usageExit
  else if argc = 2 then
    if strcmp (arg 1) "off".data ≠ 0 ∧ strcmp (arg 1) "status".data ≠ 0 then some .usageExit
    else some (.proceed { cmd := -1, brightness := Double.zero, frequency := 0 })
  else if strcmp (arg 1) "on".data = 0 then
    if argc ≠ 3 then some .usageExit
    else some (.proceed { cmd := 1, brightness := atof (arg 2), frequency := 0 })
  else if strcmp (arg 1) "flash".data = 0 then
    if argc ≠ 4 then some .usageExit
    else
      match atoi (arg 3) with
      | none => none
      | some i =>
        some (.proceed { cmd := 2, brightness := atof (arg 2), frequency := toUInt32 i })
  else some .usageExit

/-- Argument checking of the client `main`, with the `if(cmd < 0)` step that
tells `off` (0) from `status` (3). -/
def parseArgs (atof : Bytes → Double) (argv : List Bytes) : Option ArgOutcome :=
  match checkArgs atof argv with
  | some (.proceed a) =>
    if a.cmd < 0 then
      if strcmp (argv.getD 1 []) "off".data = 0 then some (.proceed { a with cmd := 0 })
      else some (.proceed { a with cmd := 3 })
    else some (.proceed a)
  | r => r

/-- What the bus library returns to the client: the status of its start-up
calls, whether `getinterface` finds the interface, the status of
`alljoyn_msgarg_array_set` and of the method call (not `ER_OK` also on a
time-out), and the reply. -/
structure ClientResults where
  createinterface : Nat
  start : Nat
  connect : Nat
  findadvertisedname : Nat
  getinterface : Bool
  array_set : Nat
  methodcall : Nat
  reply : Reply
  deriving DecidableEq, Repr

/-- What happens while the client waits: a `found_advertised_name` callback
with the reported name and what `joinsession` would return and store as
session id, or an interrupt. -/
inductive Event where
  | found (name : Bytes) (joinStatus : Nat) (joinSessionId : Nat)
  | interrupt
  deriving DecidableEq, Repr

/-- The globals of the client and the `joinsession` calls made so far. -/
structure ClientState where
  s_joinComplete : Bool
  s_sessionId : Nat
  g_interrupt : Bool
  joins : List (Bytes × Nat)
  deriving DecidableEq, Repr

/-- The globals at program start: `s_joinComplete = QCC_FALSE`,
`s_sessionId = 0`, `g_interrupt = QCC_FALSE`. -/
def initialClientState : ClientState :=
  { s_joinComplete := false, s_sessionId := 0, g_interrupt := false, joins := [] }

/-- `found_advertised_name(context, name, transport, namePrefix)`. -/
def found_advertised_name (st : ClientState) (name : Bytes) (joinStatus joinSessionId : Nat) :
    ClientState :=
  let st :=
    if strcmp name OBJECT_NAME = 0 then
      { st with s_sessionId := joinSessionId, joins := st.joins ++ [(name, joinStatus)] }
    else st
  { st with s_joinComplete := true }

/-- One event delivered to the waiting client. -/
def deliver (st : ClientState) : Event → ClientState
  | .found name joinStatus joinSessionId => found_advertised_name st name joinStatus joinSessionId
  | .interrupt => { st with g_interrupt := true }

/-- The loop `while (s_joinComplete == QCC_FALSE && g_interrupt == QCC_FALSE)`;
`none` when the events run out with both flags still false (the client waits
for ever). -/
def waitLoop : ClientState → List Event → Option ClientState
  | st, [] => if st.s_joinComplete || st.g_interrupt then some st else none
  | st, e :: es =>
    if st.s_joinComplete || st.g_interrupt then some st else waitLoop (deliver st e) es

/-- A method call made through the proxy: the command, the session id the
proxy was created with, and the arguments. -/
structure Invocation where
  cmd : Int
  sessionId : Nat
  brightness : Double
  frequency : Nat
  deriving DecidableEq, Repr

/-- A run of the client past argument checking: the `joinsession` calls, the
method call made (if any), the reply printed (if any) and the value returned
by `main`. -/
structure ClientOutcome where
  joins : List (Bytes × Nat)
  invoked : Option Invocation
  printed : Option Reply
  exitCode : Nat
  deriving DecidableEq, Repr

/-- How a run of the client ends. -/
inductive ClientEnd where
  | usage
  | undefinedArgs
  | waitsForever
  | assertFailed
  | returned (o : ClientOutcome)
  deriving DecidableEq, Repr

/-- `doOff`, `doOn`, `doFlash`, `doStatus`, selected by `switch(cmd)`: the
method call made and the reply handed to `processResponse`. -/
def doCommand (r : ClientResults) (a : ClientArgs) (sessionId : Nat) :
    Option Invocation × Option Reply :=
  let call : Option Invocation × Option Reply :=
    (some { cmd := a.cmd, sessionId := sessionId, brightness := a.brightness,
            frequency := a.frequency },
      if r.methodcall = ER_OK then some r.reply else none)
  if a.cmd = 0 ∨ a.cmd = 3 then call
  else if a.cmd = 1 ∨ a.cmd = 2 then
    if r.array_set ≠ ER_OK then (none, none) else call
  else (none, none)

/-- The client `main` from "Create message bus" on. -/
def clientBus (r : ClientResults) (a : ClientArgs) (events : List Event) : ClientEnd :=
  let status := r.createinterface
  let status := if status = ER_OK then r.start else status
  let status := if status = ER_OK then r.connect else status
  let status := if status = ER_OK then r.findadvertisedname else status
  match waitLoop initialClientState events with
  | none => .waitsForever
  | some st =>
    if status = ER_OK ∧ st.g_interrupt = false then
      if r.getinterface = false then .assertFailed
      else
        let (invoked, printed) := doCommand r a st.s_sessionId
        .returned { joins := st.joins, invoked := invoked, printed := printed,
                    exitCode := status }
    else
      .returned { joins := st.joins, invoked := none, printed := none, exitCode := status }

/-- `main` of the client. -/
def led_client_main (atof : Bytes → Double) (argv : List Bytes) (r : ClientResults)
    (events : List Event) : ClientEnd :=
  match parseArgs atof argv with
  | none => .undefinedArgs
  | some .usageExit => .usage
  | some (.proceed a) => clientBus r a events

/-- Every call of the client returns `ER_OK`; the reply is `(1.0, 0)`. -/
def clientOk : ClientResults :=
  { createinterface := 0, start := 0, connect := 0, findadvertisedname := 0,
    getinterface := true, array_set := 0, methodcall := 0, reply := (Double.one, 0) }

/-! ## Lemmas on the C library functions -/

theorem char_eq_of_toNat_eq {x y : Char} (h : x.toNat = y.toNat) : x = y := by
  rw [← Char.ofNat_toNat x, ← Char.ofNat_toNat y, h]

theorem toNat_ne_zero_of_ne_NUL {x : Char} (h : x ≠ NUL) : x.toNat ≠ 0 := by
  intro h0
  exact h (char_eq_of_toNat_eq (by rw [h0]; rfl))

/-- The first `c` of a buffer is found behind a prefix that holds neither `c` nor NUL. -/
theorem strchr_append_cons (pre rest : Bytes) (c : Char)
    (h : ∀ x ∈ pre, x ≠ c ∧ x ≠ NUL) :
    strchr (pre ++ c :: rest) c = some pre.length := by
  induction pre with
  | nil => simp [strchr]
  | cons x xs ih =>
    have hx := h x (List.mem_cons_self _ _)
    have hxs := ih (fun y hy => h y (List.mem_cons_of_mem _ hy))
    simp [strchr, hx.1, hx.2, hxs]

/-- A NUL-terminated text compares equal to a NUL-free string exactly when it is that string. -/
theorem strcmp_terminated_eq_zero_iff (n t post : Bytes)
    (hn : ∀ x ∈ n, x ≠ NUL) (ht : ∀ x ∈ t, x ≠ NUL) :
    strcmp (n ++ NUL :: post) t = 0 ↔ n = t := by
  induction n generalizing t with
  | nil =>
    cases t with
    | nil => simp [strcmp, NUL]
    | cons y ys =>
      have hy : y ≠ NUL := ht y (List.mem_cons_self _ _)
      have hy0 := toNat_ne_zero_of_ne_NUL hy
      have hne : ¬ (NUL = y) := fun e => hy e.symm
      have hz : NUL.toNat = 0 := rfl
      simp only [List.nil_append, strcmp, ne_eq, hne, not_false_eq_true, if_true, hz]
      constructor
      · intro h; omega
      · intro h; cases h
  | cons x xs ih =>
    have hx : x ≠ NUL := hn x (List.mem_cons_self _ _)
    have hx0 := toNat_ne_zero_of_ne_NUL hx
    cases t with
    | nil =>
      simp only [List.cons_append, strcmp]
      constructor
      · intro h; omega
      · intro h; cases h
    | cons y ys =>
      simp only [List.cons_append, strcmp, ne_eq]
      by_cases hxy : x = y
      · subst hxy
        simp only [not_true_eq_false, if_false, hx, List.cons.injEq, true_and]
        exact ih ys (fun z hz => hn z (List.mem_cons_of_mem _ hz))
          (fun z hz => ht z (List.mem_cons_of_mem _ hz))
      · simp only [hxy, not_false_eq_true, if_true, List.cons.injEq, false_and, iff_false]
        intro h
        exact hxy (char_eq_of_toNat_eq (by omega))

/-- On a buffer `pre ++ "[" ++ name ++ "]" ++ post` whose `pre` holds no bracket
and no NUL and whose `name` holds no `]` and no NUL, and whose closing bracket
lies within the bytes read, `isBlinking` compares `name` with `"timer"`. -/
theorem isBlinking_bracketed {σ : Type} (K : Sysfs σ) (s : σ) (pre name post : Bytes)
    (hread : K.read s .trigger = some (pre ++ '[' :: (name ++ ']' :: post)))
    (hpre : ∀ c ∈ pre, c ≠ '[' ∧ c ≠ ']' ∧ c ≠ NUL)
    (hname : ∀ c ∈ name, c ≠ ']' ∧ c ≠ NUL)
    (hlen : pre.length + name.length + 2 ≤ BUFFER_SIZE - 1) :
    isBlinking K s = some (decide (name = str_timer)) := by
  have hbuf : (pre ++ '[' :: (name ++ ']' :: post)).take (BUFFER_SIZE - 1)
      = pre ++ '[' :: (name ++ ']' :: post.take (BUFFER_SIZE - 1 - (pre.length + name.length + 2))) := by
    have e : pre ++ '[' :: (name ++ ']' :: post) = (pre ++ '[' :: (name ++ [']'])) ++ post := by simp
    have e2 : (pre ++ '[' :: (name ++ [']'])).length = pre.length + name.length + 2 := by
      simp; omega
    rw [e, List.take_append_eq_append_take, e2, List.take_of_length_le (by omega)]
    simp
  generalize post.take (BUFFER_SIZE - 1 - (pre.length + name.length + 2)) = post1 at hbuf
  have hopen : strchr (pre ++ '[' :: (name ++ ']' :: post1)) '[' = some pre.length :=
    strchr_append_cons pre _ '[' (fun x hx => ⟨(hpre x hx).1, (hpre x hx).2.2⟩)
  have hclose : strchr (pre ++ '[' :: (name ++ ']' :: post1)) ']'
      = some (pre.length + 1 + name.length) := by
    have e : pre ++ '[' :: (name ++ ']' :: post1) = (pre ++ '[' :: name) ++ ']' :: post1 := by simp
    rw [e, strchr_append_cons (pre ++ '[' :: name) post1 ']']
    · simp; omega
    · intro x hx
      rcases List.mem_append.mp hx with h | h
      · exact ⟨(hpre x h).2.1, (hpre x h).2.2⟩
      · rcases List.mem_cons.mp h with h | h
        · subst h; exact ⟨by decide, by decide⟩
        · exact hname x h
  have hset : (pre ++ '[' :: (name ++ ']' :: post1)).set (pre.length + 1 + name.length) NUL
      = pre ++ '[' :: (name ++ NUL :: post1) := by
    have e : pre ++ '[' :: (name ++ ']' :: post1) = (pre ++ '[' :: name) ++ ']' :: post1 := by simp
    have e2 : pre.length + 1 + name.length = (pre ++ '[' :: name).length := by simp; omega
    rw [e, e2, List.set_append_right _ _ (Nat.le_refl _)]
    simp
  have hdrop : (pre ++ '[' :: (name ++ NUL :: post1)).drop (pre.length + 1) = name ++ NUL :: post1 := by
    have e : pre ++ '[' :: (name ++ NUL :: post1) = (pre ++ ['[']) ++ (name ++ NUL :: post1) := by simp
    rw [e]
    exact List.drop_left' (by simp)
  have htimer : ∀ x ∈ str_timer, x ≠ NUL := by decide
  have hcmp := strcmp_terminated_eq_zero_iff name str_timer post1 (fun x hx => (hname x hx).2) htimer
  simp only [isBlinking, readFile, hread, Option.map_some', hbuf, hopen, hclose, hset, hdrop]
  congr 1
  by_cases hnt : name = str_timer
  · have h5 : name.length = 5 := by rw [hnt]; rfl
    have hc : strcmp (name ++ NUL :: post1) str_timer = 0 := hcmp.mpr hnt
    have hl : ((pre.length + 1 + name.length : Nat) : Int) - (pre.length : Int) - 1 = 5 := by
      push_cast
      omega
    simp only [hc, hl, decide_True, Bool.and_true]
    simp [hnt]
  · have hc : ¬ (strcmp (name ++ NUL :: post1) str_timer = 0) := fun h => hnt (hcmp.mp h)
    simp [hc, hnt]

/-! ## `"%d"` followed by `atoi` -/

theorem digitChar_toNat (d : Nat) (h : d < 10) : (digitChar d).toNat = 48 + d := by
  interval_cases d <;> rfl

theorem isdigit_digitChar (d : Nat) (h : d < 10) : isdigit (digitChar d) = true := by
  interval_cases d <;> rfl

theorem digitChar_not_space_or_sign (d : Nat) (h : d < 10) :
    isspace (digitChar d) = false ∧ digitChar d ≠ '-' ∧ digitChar d ≠ '+' := by
  interval_cases d <;> decide

theorem atoiDigits_digitChar (a d : Nat) (rest : Bytes) (h : d < 10) :
    atoiDigits a (digitChar d :: rest) = atoiDigits (a * 10 + d) rest := by
  simp [atoiDigits, isdigit_digitChar d h, digitChar_toNat d h]

/-- The digits produced for `n`: they start with a digit, there are no more of
them than `n` needs, and the digit loop of `atoi` reads `n` back from them. -/
theorem decimalAux_spec (fuel : Nat) : ∀ (n : Nat) (acc : Bytes), n < fuel →
    ∃ ds : Bytes, decimalAux fuel n acc = ds ++ acc ∧
      (∃ d rest, d < 10 ∧ ds = digitChar d :: rest) ∧
      10 ^ ds.length ≤ 10 * max n 1 ∧
      ∀ (a : Nat) (tail : Bytes),
        atoiDigits a (ds ++ tail) = atoiDigits (a * 10 ^ ds.length + n) tail := by
  induction fuel with
  | zero => intro n acc h; omega
  | succ fuel ih =>
    intro n acc h
    by_cases hn : n < 10
    · refine ⟨[digitChar n], ?_, ⟨n, [], hn, rfl⟩, ?_, ?_⟩
      · simp [decimalAux, hn]
      · have : 1 ≤ max n 1 := le_max_right _ _
        simp only [List.length_singleton, pow_one]
        omega
      · intro a tail
        simp [atoiDigits_digitChar a n tail hn]
    · have hlt : n / 10 < fuel := by omega
      have hmod : n % 10 < 10 := Nat.mod_lt _ (by decide)
      obtain ⟨ds, hds, ⟨d, rest, hd, hfirst⟩, hpow, hread⟩ :=
        ih (n / 10) (digitChar (n % 10) :: acc) hlt
      refine ⟨ds ++ [digitChar (n % 10)], ?_, ⟨d, rest ++ [digitChar (n % 10)], hd, ?_⟩, ?_, ?_⟩
      · simp [decimalAux, hn, hds]
      · simp [hfirst]
      · have h1 : 1 ≤ n / 10 := by omega
        have hmax : max (n / 10) 1 = n / 10 := max_eq_left h1
        have hmax2 : max n 1 = n := max_eq_left (by omega)
        rw [hmax] at hpow
        rw [hmax2, List.length_append, List.length_singleton, pow_succ]
        omega
      · intro a tail
        have e : ds ++ [digitChar (n % 10)] ++ tail = ds ++ (digitChar (n % 10) :: tail) := by simp
        rw [e, hread a (digitChar (n % 10) :: tail), atoiDigits_digitChar _ _ _ hmod,
          List.length_append, List.length_singleton, pow_succ]
        congr 1
        have := Nat.div_add_mod n 10
        nlinarith [this]

/-- Facts on the decimal ASCII of `n`. -/
theorem natToDecimal_spec (n : Nat) :
    (∃ d rest, d < 10 ∧ natToDecimal n = digitChar d :: rest) ∧
      10 ^ (natToDecimal n).length ≤ 10 * max n 1 ∧
      atoiDigits 0 (natToDecimal n) = n := by
  obtain ⟨ds, hds, hfirst, hpow, hread⟩ := decimalAux_spec (n + 1) n [] (Nat.lt_succ_self n)
  have e : natToDecimal n = ds := by simp [natToDecimal, hds]
  rw [e]
  refine ⟨hfirst, hpow, ?_⟩
  have := hread 0 []
  simpa [atoiDigits] using this

/-- At most ten digits are printed for a value up to `2^31`. -/
theorem natToDecimal_length_le (n : Nat) (h : n ≤ 2 ^ 31) : (natToDecimal n).length ≤ 10 := by
  have hpow := (natToDecimal_spec n).2.1
  by_contra hc
  have h11 : 11 ≤ (natToDecimal n).length := by omega
  have hmono : 10 ^ 11 ≤ 10 ^ (natToDecimal n).length := Nat.pow_le_pow_right (by decide) h11
  have hmax : max n 1 ≤ 2 ^ 31 := max_le h (by norm_num)
  have : (10 : Nat) ^ 11 ≤ 10 * 2 ^ 31 := le_trans hmono (le_trans hpow (Nat.mul_le_mul_left 10 hmax))
  norm_num at this

/-- `atoi` reads back the `int` that `snprintf(frequencyStr, 80, "%d", i)` printed. -/
theorem atoi_snprintf_d (i : Int) (hlo : INT_MIN ≤ i) (hhi : i ≤ INT_MAX) :
    atoi (snprintf_d 80 i) = some i := by
  have habs : i.natAbs ≤ 2 ^ 31 := by
    simp only [INT_MIN, INT_MAX] at hlo hhi
    omega
  obtain ⟨⟨d, rest, hd, hfirst⟩, _, hread⟩ := natToDecimal_spec i.natAbs
  have hlen := natToDecimal_length_le i.natAbs habs
  obtain ⟨hsp, hminus, hplus⟩ := digitChar_not_space_or_sign d hd
  have hrange : INT_MIN ≤ i ∧ i ≤ INT_MAX := ⟨hlo, hhi⟩
  by_cases hneg : i < 0
  · have hpr : snprintf_d 80 i = '-' :: natToDecimal i.natAbs := by
      simp only [snprintf_d, intToDecimal, hneg, if_true]
      exact List.take_of_length_le (by simp; omega)
    have hval : atoiSigned ('-' :: natToDecimal i.natAbs) = i := by
      simp only [atoiSigned, if_true, hread]
      omega
    have hdw : List.dropWhile isspace ('-' :: natToDecimal i.natAbs) = '-' :: natToDecimal i.natAbs := by
      rw [List.dropWhile_cons]
      have : isspace '-' = false := by decide
      simp [this]
    simp only [atoi, hpr, hdw, hval, hrange, and_self, if_true]
  · have hpr : snprintf_d 80 i = natToDecimal i.natAbs := by
      simp only [snprintf_d, intToDecimal, hneg, if_false]
      exact List.take_of_length_le (by omega)
    have hval : atoiSigned (natToDecimal i.natAbs) = i := by
      have hr := hread
      rw [hfirst] at hr ⊢
      simp only [atoiSigned, hminus, hplus, if_false, hr]
      omega
    have hdw : List.dropWhile isspace (natToDecimal i.natAbs) = natToDecimal i.natAbs := by
      rw [hfirst, List.dropWhile_cons]
      simp [hsp]
    simp only [atoi, hpr, hdw, hval, hrange, and_self, if_true]

theorem toInt32_range (u : Nat) : INT_MIN ≤ toInt32 u ∧ toInt32 u ≤ INT_MAX := by
  have h : u % 2 ^ 32 < 2 ^ 32 := Nat.mod_lt _ (by norm_num)
  unfold toInt32 INT_MIN INT_MAX
  split <;> constructor <;> omega

theorem toUInt32_toInt32 (u : Nat) (h : u < 2 ^ 32) : toUInt32 (toInt32 u) = u := by
  have hm : u % 2 ^ 32 = u := Nat.mod_eq_of_lt h
  unfold toUInt32 toInt32
  rw [hm]
  split <;> omega

theorem toInt32_eq_zero_iff (u : Nat) (h : u < 2 ^ 32) : toInt32 u = 0 ↔ u = 0 := by
  have hm : u % 2 ^ 32 = u := Nat.mod_eq_of_lt h
  unfold toInt32
  rw [hm]
  split <;> omega

/-! ## `writeValue` -/

/-- Every `writeValue` call adds one entry to the log, whether or not the file opens. -/
theorem writeValue_log {σ : Type} (K : Sysfs σ) (m : Run σ) (f : LedFile) (v : Bytes) :
    (writeValue K m f v).log = m.log ++ [(f, v)] := by
  unfold writeValue
  cases K.write m.fs f v <;> rfl

/-- A `writeValue` whose `fopen` fails leaves the file system as it was. -/
theorem writeValue_fs_of_closed {σ : Type} (K : Sysfs σ) (m : Run σ) (f : LedFile) (v : Bytes)
    (h : K.write m.fs f v = none) : (writeValue K m f v).fs = m.fs := by
  simp [writeValue, h]

/-- A `writeValue` whose `fopen` succeeds leaves the state the write produces. -/
theorem writeValue_fs_of_open {σ : Type} (K : Sysfs σ) (m : Run σ) (f : LedFile) (v : Bytes)
    (s : σ) (h : K.write m.fs f v = some s) : (writeValue K m f v).fs = s := by
  simp [writeValue, h]

/-! ## Reading back after a command, on the LED class device -/

theorem readFile_short {σ : Type} (K : Sysfs σ) (s : σ) (f : LedFile) (v : Bytes)
    (h : K.read s f = some v) (hlen : v.length ≤ BUFFER_SIZE - 1) :
    readFile K s f = some v := by
  simp [readFile, h, List.take_of_length_le hlen]

theorem isBlinking_kernel (L : Listing) (d : LedDevice)
    (hfit : L.fits d.active) (hname : ∀ c ∈ d.active, c ≠ ']' ∧ c ≠ NUL) :
    isBlinking (kernelSysfs L) d = some (decide (d.active = str_timer)) :=
  isBlinking_bracketed (kernelSysfs L) d (L.before d.active) d.active (L.after d.active)
    rfl hfit.1 hname hfit.2

theorem snprintf_d_length (size : Nat) (i : Int) : (snprintf_d size i).length ≤ size - 1 := by
  simp [snprintf_d, List.length_take]

/-- Below `2^31` the `int` seen by `enableLed` is the frequency itself and
`"%d"` prints its decimal ASCII. -/
theorem snprintf_d_small (f : Nat) (h : f < 2 ^ 31) :
    snprintf_d 80 (toInt32 f) = natToDecimal f := by
  have hm : f % 2 ^ 32 = f := Nat.mod_eq_of_lt (by omega)
  have hi : toInt32 f = (f : Int) := by
    unfold toInt32
    rw [hm]
    split
    · rfl
    · omega
  have hlen := natToDecimal_length_le f (by omega)
  have hnn : ¬ ((f : Int) < 0) := by omega
  simp only [snprintf_d, intToDecimal, hi, hnn, if_false, Int.natAbs_ofNat]
  exact List.take_of_length_le (by omega)

/-- The `writeValue` calls of `flash_method` for a frequency `0 < f < 2^31`. -/
theorem flash_method_writes_small {σ : Type} (K : Sysfs σ) (m : Run σ) (b : Double) (f : Nat)
    (hpos : 0 < f) (h : f < 2 ^ 31) :
    writesSince m (flash_method K m b f).1
      = [(.trigger, str_timer), (.brightness, ['1']),
          (.delay_on, natToDecimal f), (.delay_off, natToDecimal f)] := by
  have hnz : toInt32 f ≠ 0 := fun h0 => by
    have := (toInt32_eq_zero_iff f (by omega)).mp h0
    omega
  simp [flash_method, enableLed, writeValue_log, writesSince, hnz, snprintf_d_small f h]

/-! ## The claims -/

/-- C1, evaluated at the failing input.  The trigger file holds `] [timer]`
(the bracketed active trigger is `timer`), brightness holds `0` and delay_on
holds `250`: `status_method` replies `(0.0, 0)`, where the claim gives
`(1.0, 250)`. -/
theorem status_method_stray_close_bracket :
    activeTrigger "] [timer]".data = some str_timer ∧
      (status_method plainSysfs (filesWith "] [timer]" "0" "250")).map Prod.snd
        = some (Double.zero, 0) := by
  decide

/-- C2.  On the LED class device, whatever trigger was active and whatever
the brightness and delay attributes held, `off_method` followed by
`status_method` replies `(0.0, 0)`. -/
theorem status_after_off (L : Listing) (m : Run LedDevice) (hfit : L.fits str_none) :
    (status_method (kernelSysfs L) (off_method (kernelSysfs L) m).1).map Prod.snd
      = some (Double.zero, 0) := by
  have hclean : ∀ c ∈ str_none, c ≠ ']' ∧ c ≠ NUL := by decide
  have hb := isBlinking_kernel L
    { m.fs with active := str_none, brightness := ['0'] } hfit hclean
  have hne : decide (str_none = str_timer) = false := by decide
  rw [hne] at hb
  have hon : isLedOn (kernelSysfs L) { m.fs with active := str_none, brightness := ['0'] } = false := by
    rfl
  simp only [off_method, disableLed, writeValue, kernelSysfs, status_method] at hb hon ⊢
  simp [hb, hon, getReturnStatus]

theorem status_after_off_witness :
    sampleListing.fits str_none ∧
      (status_method (kernelSysfs sampleListing)
        (off_method (kernelSysfs sampleListing) blinkingDevice).1).map Prod.snd
        = some (Double.zero, 0) :=
  ⟨by decide, status_after_off sampleListing blinkingDevice (by decide)⟩

/-- C3.  On the LED class device, for every brightness `b` (so for every
`b > 0`) and every unsigned 32-bit frequency `f > 0`, also `f ≥ 2^31`,
`flash_method(b, f)` followed by `status_method` replies `(1.0, f)`. -/
theorem status_after_flash (L : Listing) (m : Run LedDevice) (b : Double) (f : Nat)
    (hfit : L.fits str_timer) (hpos : 0 < f) (hf : f < 2 ^ 32) :
    (status_method (kernelSysfs L) (flash_method (kernelSysfs L) m b f).1).map Prod.snd
      = some (Double.one, f) := by
  have hnz : toInt32 f ≠ 0 := fun h => by
    have := (toInt32_eq_zero_iff f hf).mp h
    omega
  have hclean : ∀ c ∈ str_timer, c ≠ ']' ∧ c ≠ NUL := by decide
  have hb := isBlinking_kernel L
    { active := str_timer, brightness := ['1'], delay_on := snprintf_d 80 (toInt32 f),
      delay_off := snprintf_d 80 (toInt32 f) } hfit hclean
  have hyes : decide (str_timer = str_timer) = true := by decide
  rw [hyes] at hb
  have hrd : readFile (kernelSysfs L)
      { active := str_timer, brightness := ['1'], delay_on := snprintf_d 80 (toInt32 f),
        delay_off := snprintf_d 80 (toInt32 f) } .delay_on = some (snprintf_d 80 (toInt32 f)) :=
    readFile_short _ _ _ _ rfl (le_trans (snprintf_d_length 80 _) (by decide))
  have hfreq : blinkFrequency (kernelSysfs L)
      { active := str_timer, brightness := ['1'], delay_on := snprintf_d 80 (toInt32 f),
        delay_off := snprintf_d 80 (toInt32 f) } = some (toInt32 f) := by
    simp only [blinkFrequency, hrd]
    exact atoi_snprintf_d _ (toInt32_range f).1 (toInt32_range f).2
  simp only [flash_method, enableLed, hnz, if_false, writeValue, kernelSysfs, status_method]
    at hb hfreq ⊢
  simp [hb, hfreq, getReturnStatus, toUInt32_toInt32 f hf]

theorem status_after_flash_witness :
    sampleListing.fits str_timer ∧ 0 < 4294967295 ∧ 4294967295 < 2 ^ 32 ∧
      (status_method (kernelSysfs sampleListing)
        (flash_method (kernelSysfs sampleListing) blinkingDevice Double.one 4294967295).1).map
          Prod.snd = some (Double.one, 4294967295) :=
  ⟨by decide, by decide, by decide,
    status_after_flash sampleListing blinkingDevice Double.one 4294967295
      (by decide) (by decide) (by decide)⟩

/-- C4.  On the LED class device, for every brightness `b` (so for every
`b > 0`) and every prior state, also one left blinking with a non-zero
delay_on, `on_method(b)` followed by `status_method` replies `(1.0, 0)`. -/
theorem status_after_on (L : Listing) (m : Run LedDevice) (b : Double)
    (hfit : L.fits str_none) :
    (status_method (kernelSysfs L) (on_method (kernelSysfs L) m b).1).map Prod.snd
      = some (Double.one, 0) := by
  have hclean : ∀ c ∈ str_none, c ≠ ']' ∧ c ≠ NUL := by decide
  have hb := isBlinking_kernel L
    { m.fs with active := str_none, brightness := ['1'] } hfit hclean
  have hne : decide (str_none = str_timer) = false := by decide
  rw [hne] at hb
  have hon : isLedOn (kernelSysfs L) { m.fs with active := str_none, brightness := ['1'] } = true := by
    rfl
  simp only [on_method, enableLed, if_true, writeValue, kernelSysfs, status_method] at hb hon ⊢
  simp [hb, hon, getReturnStatus]

theorem status_after_on_witness :
    sampleListing.fits str_none ∧
      (status_method (kernelSysfs sampleListing)
        (on_method (kernelSysfs sampleListing)
          (flash_method (kernelSysfs sampleListing) blinkingDevice Double.one 250).1
          Double.one).1).map Prod.snd = some (Double.one, 0) :=
  ⟨by decide, status_after_on sampleListing _ Double.one (by decide)⟩

/-- C5.  Whatever the file system does on reads and writes, `on_method(b)`
replies `(b, 0)`, `off_method` replies `(0.0, 0)` and `flash_method(b, f)`
replies `(b, f)`. -/
theorem replies_echo_inputs {σ : Type} (K : Sysfs σ) (m : Run σ) (b : Double) (f : Nat) :
    (on_method K m b).2 = (b, 0) ∧ (off_method K m).2 = (Double.zero, 0) ∧
      (flash_method K m b f).2 = (b, f) :=
  ⟨rfl, rfl, rfl⟩

/-- C6.  For every brightness `b` and every starting state, `flash_method(b, 0)`
and `on_method(b)` make the same `writeValue` calls, leave the same file-system
state and build the same reply `(b, 0)`. -/
theorem flash_zero_same_as_on {σ : Type} (K : Sysfs σ) (m : Run σ) (b : Double) :
    (flash_method K m b 0).1.log = (on_method K m b).1.log ∧
      (flash_method K m b 0).1.fs = (on_method K m b).1.fs ∧
      (flash_method K m b 0).2 = (on_method K m b).2 ∧
      (on_method K m b).2 = (b, 0) ∧
      writesSince m (on_method K m b).1 = [(.trigger, str_none), (.brightness, ['1'])] := by
  have h0 : toInt32 0 = 0 := by decide
  refine ⟨?_, ?_, ?_, rfl, ?_⟩
  · simp [flash_method, on_method, h0]
  · simp [flash_method, on_method, h0]
  · simp [flash_method, on_method, getReturnStatus]
  · simp [on_method, enableLed, writeValue_log, writesSince]

/-- C7, evaluated at the failing input.  In the content `] [timer]` the text
between the first `[` and the first `]` after it is `timer`, and `isBlinking`
returns false: its `strchr(trigger, ']')` finds the `]` at index 0. -/
theorem isBlinking_stray_close_bracket :
    activeTrigger "] [timer]".data = some str_timer ∧
      strchr "] [timer]".data ']' = some 0 ∧
      isBlinking plainSysfs (filesWith "] [timer]" "1" "250").fs = some false := by
  decide

/-- C8, evaluated on the four contents.  `isBlinking` returns true, false and
true on `none [timer] heartbeat`, `[none] timer` and `[timer]`; on the empty
content both `strchr` calls give NULL and the store `*end = 0` goes through a
NULL pointer, so no result is returned. -/
theorem isBlinking_four_contents :
    isBlinking plainSysfs (filesWith "none [timer] heartbeat" "1" "250").fs = some true ∧
      isBlinking plainSysfs (filesWith "[none] timer" "1" "250").fs = some false ∧
      strchr "".data '[' = none ∧ strchr "".data ']' = none ∧
      isBlinking plainSysfs (filesWith "" "1" "250").fs = none ∧
      isBlinking plainSysfs (filesWith "[timer]" "1" "250").fs = some true := by
  decide

/-- C9, evaluated at the failing input.  For the frequency `2147483648` the
calls of `flash_method` are `"timer"` to trigger, `"1"` to brightness, then
`"-2147483648"` to delay_on and to delay_off; the decimal ASCII of the
frequency is `"2147483648"`. -/
theorem flash_method_large_frequency_writes {σ : Type} (K : Sysfs σ) (m : Run σ) (b : Double) :
    writesSince m (flash_method K m b 2147483648).1
        = [(.trigger, str_timer), (.brightness, ['1']),
            (.delay_on, "-2147483648".data), (.delay_off, "-2147483648".data)] ∧
      natToDecimal 2147483648 = "2147483648".data := by
  have hi : toInt32 2147483648 = -2147483648 := by decide
  have hs : snprintf_d 80 (-2147483648) = "-2147483648".data := by decide
  refine ⟨?_, by decide⟩
  simp [flash_method, enableLed, writeValue_log, writesSince, hi, hs]

/-- C10 as stated fails at `b = 0.0`: this brightness lies in `[0.0, 1.0]` and
equals zero, and `on_method` hands `"1"`, not `"0"`, to the brightness file. -/
theorem on_method_zero_brightness_writes_one :
    Double.zero.inUnitInterval = true ∧ Double.zero.isZero = true ∧
      brightnessWritten
        (writesSince (filesWith "[none] timer" "0" "0")
          (on_method plainSysfs (filesWith "[none] timer" "0" "0") Double.zero).1) = [['1']] ∧
      brightnessWritten
        (writesSince (filesWith "[none] timer" "0" "0")
          (on_method plainSysfs (filesWith "[none] timer" "0" "0") Double.zero).1) ≠ [['0']] := by
  decide

/-- C10, amended.  For every brightness `b`, zero or positive, and every
frequency, `on_method` and `flash_method` hand exactly one value to the
brightness file, and it is `"1"`. -/
theorem brightness_written_is_one {σ : Type} (K : Sysfs σ) (m : Run σ) (b : Double) (f : Nat) :
    brightnessWritten (writesSince m (on_method K m b).1) = [['1']] ∧
      brightnessWritten (writesSince m (flash_method K m b f).1) = [['1']] := by
  constructor
  · simp [on_method, enableLed, writeValue_log, writesSince, brightnessWritten]
  · by_cases h : toInt32 f = 0
    · simp [flash_method, enableLed, writeValue_log, writesSince, brightnessWritten, h]
    · simp [flash_method, enableLed, writeValue_log, writesSince, brightnessWritten, h]

/-! ## Lemmas for the delay file, the missing device and the client -/

/-- The digit loop stops at once on a text that does not start with a digit. -/
theorem atoiDigits_stop (a : Nat) (rest : Bytes) (h : ∀ c ∈ rest.head?, isdigit c = false) :
    atoiDigits a rest = a := by
  cases rest with
  | nil => rfl
  | cons c cs =>
    have hc : isdigit c = false := h c (by simp)
    simp [atoiDigits, hc]

/-- The digit loop reads `n` from its decimal ASCII, whatever non-digit text follows. -/
theorem atoiDigits_natToDecimal (n : Nat) (rest : Bytes)
    (h : ∀ c ∈ rest.head?, isdigit c = false) :
    atoiDigits 0 (natToDecimal n ++ rest) = n := by
  obtain ⟨ds, hds, _, _, hread⟩ := decimalAux_spec (n + 1) n [] (Nat.lt_succ_self n)
  have e : natToDecimal n = ds := by simp [natToDecimal, hds]
  rw [e, hread 0 rest, atoiDigits_stop _ rest h]
  simp

/-- `atoi` on an optional minus sign, the decimal ASCII of `n` and a text that
does not start with a digit. -/
theorem atoi_decimal (minus : Bool) (n : Nat) (rest : Bytes) (hn : n ≤ 2147483647)
    (h : ∀ c ∈ rest.head?, isdigit c = false) :
    atoi ((if minus then ['-'] else []) ++ natToDecimal n ++ rest)
      = some (if minus then -(n : Int) else (n : Int)) := by
  obtain ⟨⟨d, tl, hd, hfirst⟩, _, _⟩ := natToDecimal_spec n
  obtain ⟨hsp, hminus, hplus⟩ := digitChar_not_space_or_sign d hd
  have hread := atoiDigits_natToDecimal n rest h
  cases minus with
  | true =>
    have hdw : List.dropWhile isspace ('-' :: (natToDecimal n ++ rest))
        = '-' :: (natToDecimal n ++ rest) := by
      rw [List.dropWhile_cons]
      have : isspace '-' = false := by decide
      simp [this]
    have hval : atoiSigned ('-' :: (natToDecimal n ++ rest)) = -(n : Int) := by
      simp only [atoiSigned, if_true, hread]
    have hrange : INT_MIN ≤ -(n : Int) ∧ -(n : Int) ≤ INT_MAX := by
      simp only [INT_MIN, INT_MAX]
      omega
    simp only [if_true, List.singleton_append, List.cons_append, List.nil_append, atoi, hdw, hval,
      hrange, and_self]
  | false =>
    have hdw : List.dropWhile isspace (natToDecimal n ++ rest) = natToDecimal n ++ rest := by
      rw [hfirst, List.cons_append, List.dropWhile_cons]
      simp [hsp]
    have hval : atoiSigned (natToDecimal n ++ rest) = (n : Int) := by
      have hr := hread
      rw [hfirst, List.cons_append] at hr ⊢
      simp only [atoiSigned, hminus, hplus, if_false, hr]
    have hrange : INT_MIN ≤ (n : Int) ∧ (n : Int) ≤ INT_MAX := by
      simp only [INT_MIN, INT_MAX]
      omega
    simp only [Bool.false_eq_true, if_false, List.nil_append, atoi, hdw, hval, hrange, and_self,
      if_true]

/-- Cutting a text after at least one byte keeps its first byte. -/
theorem head?_take_succ (k : Nat) (rest : Bytes) : (rest.take (k + 1)).head? = rest.head? := by
  cases rest <;> simp

/-! ## The claims on the delay file and the missing device -/

/-- C11 as stated fails on a leading minus sign and on text after the digits:
for the contents `-5` and `12abc` of delay_on, `blinkFrequency` returns `-5`
(a negative result) and `12`, not `0`. -/
theorem blinkFrequency_minus_and_suffix :
    blinkFrequency plainSysfs (filesWith "[timer]" "1" "-5").fs = some (-5) ∧
      blinkFrequency plainSysfs (filesWith "[timer]" "1" "12abc").fs = some 12 := by
  decide

/-- C11, amended.  `blinkFrequency` returns what `atoi` makes of the content of
delay_on: when the content is an optional minus sign, the decimal ASCII of an
integer `n ≤ 2147483647` and then nothing or a text that does not start with a
digit (the newline the kernel appends, or any other non-digit bytes), the
result is `n`, negated under a minus sign; and the result is `0` when the
content is empty or the file cannot be opened. -/
theorem blinkFrequency_decimal {σ : Type} (K : Sysfs σ) (s : σ) (minus : Bool) (n : Nat)
    (rest : Bytes)
    (hread : K.read s .delay_on = some ((if minus then ['-'] else []) ++ natToDecimal n ++ rest))
    (hn : n ≤ 2147483647) (hrest : ∀ c ∈ rest.head?, isdigit c = false) :
    blinkFrequency K s = some (if minus then -(n : Int) else (n : Int)) ∧
      ∀ t : σ, K.read t .delay_on = none ∨ K.read t .delay_on = some [] →
        blinkFrequency K t = some 0 := by
  constructor
  · have hlen := natToDecimal_length_le n (by omega)
    have hA : ((if minus then ['-'] else []) ++ natToDecimal n).length ≤ 11 := by
      cases minus <;> simp <;> omega
    obtain ⟨k, hk⟩ : ∃ k, BUFFER_SIZE - 1
        - ((if minus then ['-'] else []) ++ natToDecimal n).length = k + 1 :=
      ⟨BUFFER_SIZE - 1 - ((if minus then ['-'] else []) ++ natToDecimal n).length - 1, by
        simp only [BUFFER_SIZE]; omega⟩
    have htake : ((if minus then ['-'] else []) ++ natToDecimal n ++ rest).take (BUFFER_SIZE - 1)
        = (if minus then ['-'] else []) ++ natToDecimal n ++ rest.take (k + 1) := by
      rw [List.take_append_eq_append_take, hk,
        List.take_of_length_le (by simp only [BUFFER_SIZE]; omega)]
    have hhead : ∀ c ∈ (rest.take (k + 1)).head?, isdigit c = false := by
      rw [head?_take_succ]; exact hrest
    simp only [blinkFrequency, readFile, hread, Option.map_some', htake]
    exact atoi_decimal minus n (rest.take (k + 1)) hn hhead
  · intro t ht
    rcases ht with ht | ht
    · simp [blinkFrequency, readFile, ht]
    · simp only [blinkFrequency, readFile, ht, Option.map_some', List.take_nil]
      decide

theorem blinkFrequency_decimal_witness :
    plainSysfs.read (filesWith "[timer]" "1" "250\n").fs .delay_on
        = some ((if false then ['-'] else []) ++ natToDecimal 250 ++ ['\n']) ∧
      blinkFrequency plainSysfs (filesWith "[timer]" "1" "250\n").fs = some 250 :=
  ⟨by decide,
    (blinkFrequency_decimal plainSysfs (filesWith "[timer]" "1" "250\n").fs false 250 ['\n']
      (by decide) (by decide) (by decide)).1⟩

theorem enableLed_fs_of_closed {σ : Type} (K : Sysfs σ) (m : Run σ) (b : Double) (i : Int)
    (h : ∀ f v, K.write m.fs f v = none) : (enableLed K m b i).fs = m.fs := by
  have step : ∀ (m1 : Run σ) (f : LedFile) (v : Bytes), m1.fs = m.fs →
      (writeValue K m1 f v).fs = m.fs := by
    intro m1 f v h1
    rw [writeValue_fs_of_closed K m1 f v (by rw [h1]; exact h f v), h1]
  unfold enableLed
  split
  · exact step _ _ _ (step _ _ _ rfl)
  · exact step _ _ _ (step _ _ _ (step _ _ _ (step _ _ _ rfl)))

theorem disableLed_fs_of_closed {σ : Type} (K : Sysfs σ) (m : Run σ)
    (h : ∀ f v, K.write m.fs f v = none) : (disableLed K m).fs = m.fs := by
  have step : ∀ (m1 : Run σ) (f : LedFile) (v : Bytes), m1.fs = m.fs →
      (writeValue K m1 f v).fs = m.fs := by
    intro m1 f v h1
    rw [writeValue_fs_of_closed K m1 f v (by rw [h1]; exact h f v), h1]
  unfold disableLed
  exact step _ _ _ (step _ _ _ rfl)

theorem runCommand_fs_of_closed {σ : Type} (K : Sysfs σ) (m : Run σ) (c : Command)
    (h : ∀ f v, K.write m.fs f v = none) : (runCommand K m c).1.fs = m.fs :=
  match c with
  | .on b => enableLed_fs_of_closed K m b 0 h
  | .off => disableLed_fs_of_closed K m h
  | .flash b f => enableLed_fs_of_closed K m b (toInt32 f) h

theorem runCommands_fs_of_closed {σ : Type} (K : Sysfs σ) (cmds : List Command) :
    ∀ m : Run σ, (∀ f v, K.write m.fs f v = none) → (runCommands K m cmds).fs = m.fs := by
  induction cmds with
  | nil => intro m _; rfl
  | cons c cs ih =>
    intro m h
    have h1 := runCommand_fs_of_closed K m c h
    have h2 := ih (runCommand K m c).1 (by rw [h1]; exact h)
    simp only [runCommands]
    rw [h2, h1]

/-- C12.  When none of the four files can be opened, for reading or for
writing, then after any sequence of on, off and flash calls the file system is
as it was (each handler still returns its reply), `isLedOn` and `isBlinking`
return false, `blinkFrequency` returns `0` and `status_method` replies
`(0.0, 0)`. -/
theorem missing_device_reports_off {σ : Type} (K : Sysfs σ) (m : Run σ) (cmds : List Command)
    (hr : ∀ f, K.read m.fs f = none) (hw : ∀ f v, K.write m.fs f v = none) :
    (runCommands K m cmds).fs = m.fs ∧
      isLedOn K (runCommands K m cmds).fs = false ∧
      isBlinking K (runCommands K m cmds).fs = some false ∧
      blinkFrequency K (runCommands K m cmds).fs = some 0 ∧
      (status_method K (runCommands K m cmds)).map Prod.snd = some (Double.zero, 0) := by
  have hfs := runCommands_fs_of_closed K cmds m hw
  have hon : isLedOn K (runCommands K m cmds).fs = false := by
    simp [isLedOn, readFile, hfs, hr]
  have hbl : isBlinking K (runCommands K m cmds).fs = some false := by
    simp [isBlinking, readFile, hfs, hr]
  have hfr : blinkFrequency K (runCommands K m cmds).fs = some 0 := by
    simp [blinkFrequency, readFile, hfs, hr]
  refine ⟨hfs, hon, hbl, hfr, ?_⟩
  simp [status_method, hbl, hon, getReturnStatus]

theorem missing_device_reports_off_witness :
    (∀ f, plainSysfs.read missingDevice.fs f = none) ∧
      (∀ f v, plainSysfs.write missingDevice.fs f v = none) ∧
      (status_method plainSysfs
        (runCommands plainSysfs missingDevice
          [Command.on Double.one, Command.flash Double.one 500, Command.off])).map Prod.snd
        = some (Double.zero, 0) :=
  ⟨fun f => by cases f <;> rfl, fun f v => by cases f <;> rfl,
    (missing_device_reports_off plainSysfs missingDevice
      [Command.on Double.one, Command.flash Double.one 500, Command.off]
      (fun f => by cases f <;> rfl) (fun f v => by cases f <;> rfl)).2.2.2.2⟩

/-! ## The claims on the client arguments and on the two `main` functions -/

/-- C14, evaluated at the failing input.  When every start-up call returns
`ER_OK` except `requestname`, which returns status 1, the service still binds
the session port and advertises the name, enters the run loop and returns 0:
the status of `requestname` is stored in a variable declared inside the block.
Likewise a failing `addmethodhandlers` is followed by `start`, which overwrites
the status. -/
theorem service_main_lost_status :
    led_service_main { allOk with requestname := 1 }
        = { listenerRegistered := true,
            calls := [.createinterface, .addmethodhandlers, .start, .registerbusobject,
                      .connect, .requestname, .bindsessionport, .advertisename],
            runLoop := true, exitCode := some 0 } ∧
      led_service_main { allOk with addmethodhandlers := 1 }
        = { listenerRegistered := true,
            calls := [.createinterface, .addmethodhandlers, .start, .registerbusobject,
                      .connect, .requestname, .bindsessionport, .advertisename],
            runLoop := true, exitCode := some 0 } := by
  decide

/-- The first event ends the wait: a callback sets `s_joinComplete` whatever
the name, an interrupt sets `g_interrupt`. -/
theorem waitLoop_first_event (e : Event) (es : List Event) :
    waitLoop initialClientState (e :: es) = some (deliver initialClientState e) := by
  have hflag : ((deliver initialClientState e).s_joinComplete
      || (deliver initialClientState e).g_interrupt) = true := by
    cases e with
    | found name js jid => simp [deliver, found_advertised_name]
    | interrupt => simp [deliver]
  have hinit : (initialClientState.s_joinComplete || initialClientState.g_interrupt) = false := rfl
  cases es with
  | nil => simp only [waitLoop, hinit, hflag]; simp
  | cons e2 es2 => simp only [waitLoop, hinit, hflag]; simp

/-- What the client `main` returns, past argument checking and once a callback
or an interrupt has ended the wait: the status of the first failing call among
create-interface, start, connect and find-advertised-name, `ER_OK` when none of
the four failed.  No other status is ever assigned to `status`. -/
theorem client_returns_startup_status (atof : Bytes → Double) (argv : List Bytes) (r : ClientResults)
    (events : List Event) (a : ClientArgs)
    (hargs : parseArgs atof argv = some (ArgOutcome.proceed a))
    (hev : events ≠ []) (hget : r.getinterface = true) :
    ∃ o, led_client_main atof argv r events = ClientEnd.returned o ∧
      o.exitCode =
        if r.createinterface ≠ ER_OK then r.createinterface
        else if r.start ≠ ER_OK then r.start
        else if r.connect ≠ ER_OK then r.connect
        else r.findadvertisedname := by
  obtain ⟨e, es, rfl⟩ := List.exists_cons_of_ne_nil hev
  simp only [led_client_main, hargs, clientBus, waitLoop_first_event, hget]
  by_cases h1 : r.createinterface = ER_OK
  · by_cases h2 : r.start = ER_OK
    · by_cases h3 : r.connect = ER_OK
      · simp only [h1, h2, h3, if_true, ne_eq, not_true_eq_false, if_false]
        split <;> exact ⟨_, rfl, by simp_all⟩
      · simp only [h1, h2, h3, if_true, ne_eq, not_true_eq_false, if_false, false_and,
          not_false_eq_true]
        exact ⟨_, rfl, rfl⟩
    · simp only [h1, h2, if_true, ne_eq, not_true_eq_false, if_false, false_and,
        not_false_eq_true]
      exact ⟨_, rfl, rfl⟩
  · simp only [h1, if_true, ne_eq, if_false, false_and, not_false_eq_true]
    exact ⟨_, rfl, rfl⟩

/-- C15, evaluated at the failing inputs.  With every start-up call `ER_OK`:
after a join that returns status 1 and a method call that returns status 1 the
client has printed both failures and returns 0; after a successful join
(session id 7) and a method call that returns status 1, as on a time-out, it
returns 0 as well.  The sibling path does reach the exit code: when
find-advertised-name returns status 9 the client, once interrupted, returns 9. -/
theorem client_exit_zero_after_failures :
    (fun atof => led_client_main atof ["led_client".data, "status".data]
        { clientOk with methodcall := 1 } [Event.found OBJECT_NAME 1 0])
      = (fun _ => ClientEnd.returned
          { joins := [(OBJECT_NAME, 1)],
            invoked := some { cmd := 3, sessionId := 0, brightness := Double.zero,
                              frequency := 0 },
            printed := none, exitCode := 0 }) ∧
      (fun atof => led_client_main atof ["led_client".data, "status".data]
          { clientOk with methodcall := 1 } [Event.found OBJECT_NAME 0 7])
        = (fun _ => ClientEnd.returned
            { joins := [(OBJECT_NAME, 0)],
              invoked := some { cmd := 3, sessionId := 7, brightness := Double.zero,
                                frequency := 0 },
              printed := none, exitCode := 0 }) ∧
      (fun atof => led_client_main atof ["led_client".data, "status".data]
          { clientOk with findadvertisedname := 9 } [Event.interrupt])
        = (fun _ => ClientEnd.returned
            { joins := [], invoked := none, printed := none, exitCode := 9 }) := by
  refine ⟨?_, ?_, ?_⟩ <;> rfl

/-- C16, evaluated at the failing inputs.  After one callback that reports a
name other than the service name no `joinsession` call is made, yet the
join-complete flag is set and the method is called through a proxy with
session id 0; after one callback for the service name whose join returns
status 1 the method is called as well. -/
theorem client_invokes_without_session :
    (fun atof => led_client_main atof ["led_client".data, "status".data] clientOk
        [Event.found "org.alljoyn.sample.ledcontroller.beagle2".data 0 7])
      = (fun _ => ClientEnd.returned
          { joins := [],
            invoked := some { cmd := 3, sessionId := 0, brightness := Double.zero,
                              frequency := 0 },
            printed := some (Double.one, 0), exitCode := 0 }) ∧
      (fun atof => led_client_main atof ["led_client".data, "status".data] clientOk
          [Event.found OBJECT_NAME 1 0])
        = (fun _ => ClientEnd.returned
            { joins := [(OBJECT_NAME, 1)],
              invoked := some { cmd := 3, sessionId := 0, brightness := Double.zero,
                                frequency := 0 },
              printed := some (Double.one, 0), exitCode := 0 }) := by
  constructor <;> rfl

end LedService
